import Mathlib

/-!
# Verification of `repoze/catalog/query.py`

A shallow embedding of the query-algebra module: the query tree data
model, the combinator operators (`__and__` / `__or__` / `__sub__`),
evaluation of operator nodes against a catalog (`apply`), the chainable
`SearchQuery` accumulator, the expression compiler (`_AstQuery` /
`parse_query`), and the tree optimizer (`_group_any_and_all`).

Python is dynamically typed, so a single inductive type `Obj` models
every Python runtime value that flows through the module: query nodes
(the `Comparator` and `Operator` subclasses of `Query`), literal values
(strings, numbers, lists, tuples), and unresolved `ast.Name` references.

External collaborators (the BTrees weighted-set primitive, catalog and
index objects, and the host `ast` parser) are modelled at their
interfaces, per their documented semantics.
-/

/-- Model of the Python runtime values handled by the module.
Constructors `contains` … `allOf` model the `Comparator` subclasses
(`Contains`, `Eq`, `NotEq`, `Gt`, `Lt`, `Ge`, `Le`, `Any`, `All`), each
holding `index_name` and `value`; `union`/`inter`/`diff` model the
`Operator` subclasses (`Union`, `Intersection`, `Difference`), each
holding `left` and `right`; the remaining constructors model plain
Python values (`str`, numbers, `list`, `tuple`) and `ast.Name` nodes. -/
inductive Obj where
  | ostr (s : String)
  | oint (n : Int)
  | olist (elts : List Obj)
  | otuple (elts : List Obj)
  | oname (id : String)
  | contains (index_name : String) (value : Obj)
  | eq (index_name : String) (value : Obj)
  | notEq (index_name : String) (value : Obj)
  | gt (index_name : String) (value : Obj)
  | lt (index_name : String) (value : Obj)
  | ge (index_name : String) (value : Obj)
  | le (index_name : String) (value : Obj)
  | anyOf (index_name : String) (value : Obj)
  | allOf (index_name : String) (value : Obj)
  | union (left right : Obj)
  | inter (left right : Obj)
  | diff (left right : Obj)

/-- Model of `isinstance(x, Query)`: query nodes are the comparator and operator
constructors; plain values and `ast.Name` references are not queries. -/
def Obj.isQuery : Obj → Bool
  | .ostr _ | .oint _ | .olist _ | .otuple _ | .oname _ => false
  | _ => true

/-- Model of `isinstance(x, Operator)`. -/
def Obj.isOperator : Obj → Bool
  | .union _ _ | .inter _ _ | .diff _ _ => true
  | _ => false

/-! ## The tree optimizer `_group_any_and_all`

The source uses an in-place rewrite (`node.left = group(...)`); the
embedding makes the rewriting explicit: `visitQ` returns the rewritten
subtree together with the `(index, values)` pair the Python `visit`
returns, and `_group_any_and_all` applies the final `group` to the
rewritten root exactly as the source applies it to the mutated tree. -/

/-- Result of the optimizer's recursive `visit`: the (possibly
rewritten) subtree plus the `(index, values)` pair `visit` returns. -/
structure VRes where
  node : Obj
  idx  : Option String
  vals : List Obj

/-- The inner function `group` of `_group_any_and_all`.  In the source,
`group` can in principle be handed `index_name = None`, in which case it
would build `All(None, values)`; `visit` however only ever produces a
`none` index together with an empty value list (theorem
`visitQ_idx_none`), and `group` leaves value lists of length ≤ 1 alone,
so the `Option.getD` default is never the index of a built node. -/
def groupQ (node : Obj) (index_name : Option String) (values : List Obj) : Obj :=
  if 1 < values.length then
    match node with
    | .inter _ _ => .allOf (index_name.getD "") (.olist values)
    | .union _ _ => .anyOf (index_name.getD "") (.olist values)
    | _ => node
  else node

/-- The three `Operator` classes, used to state facts about the
optimizer's treatment of operator nodes once instead of three times.
`visit` preserves the class of an operator node (in-place mutation never
changes a node's type), which the embedding expresses by rebuilding the
node with the same kind. -/
inductive OpKind where
  | u | i | d

/-- Rebuild an operator node of the given class. -/
def OpKind.mk : OpKind → Obj → Obj → Obj
  | .u => .union
  | .i => .inter
  | .d => .diff

/-- The `isinstance(node, Operator)` branch of the optimizer's `visit`:
if the children report the same index the values are merged and flow
upward; otherwise each child is rewritten by `group` and
`(None, [])` flows upward. -/
def visitNode (k : OpKind) (L R : VRes) : VRes :=
  if L.idx = R.idx then
    ⟨k.mk L.node R.node, L.idx, L.vals ++ R.vals⟩
  else
    ⟨k.mk (groupQ L.node L.idx L.vals) (groupQ R.node R.idx R.vals), none, []⟩

/-- The inner function `visit` of `_group_any_and_all`: operator nodes
recurse into both children; an `Eq` leaf reports its index name and
value; every other object reports `(None, [])`. -/
def visitQ : Obj → VRes
  | .union l r => visitNode .u (visitQ l) (visitQ r)
  | .inter l r => visitNode .i (visitQ l) (visitQ r)
  | .diff l r  => visitNode .d (visitQ l) (visitQ r)
  | .eq i v    => ⟨.eq i v, some i, [v]⟩
  | t          => ⟨t, none, []⟩

/-- The optimizer `_group_any_and_all(tree)`: run `visit` over the tree, then apply
`group` to the (rewritten) root with the reported index and values. -/
def _group_any_and_all (tree : Obj) : Obj :=
  let v := visitQ tree
  groupQ v.node v.idx v.vals

@[simp] theorem visitQ_union (l r : Obj) :
    visitQ (.union l r) = visitNode .u (visitQ l) (visitQ r) := rfl

@[simp] theorem visitQ_inter (l r : Obj) :
    visitQ (.inter l r) = visitNode .i (visitQ l) (visitQ r) := rfl

@[simp] theorem visitQ_diff (l r : Obj) :
    visitQ (.diff l r) = visitNode .d (visitQ l) (visitQ r) := rfl

@[simp] theorem visitQ_eq (i : String) (v : Obj) :
    visitQ (.eq i v) = ⟨.eq i v, some i, [v]⟩ := rfl

theorem visitQ_opmk (k : OpKind) (l r : Obj) :
    visitQ (k.mk l r) = visitNode k (visitQ l) (visitQ r) := by
  cases k <;> rfl

theorem visitNode_pos (k : OpKind) (L R : VRes) (h : L.idx = R.idx) :
    visitNode k L R = ⟨k.mk L.node R.node, L.idx, L.vals ++ R.vals⟩ := by
  rw [visitNode, if_pos h]

theorem visitNode_neg (k : OpKind) (L R : VRes) (h : ¬ L.idx = R.idx) :
    visitNode k L R =
      ⟨k.mk (groupQ L.node L.idx L.vals) (groupQ R.node R.idx R.vals), none, []⟩ := by
  rw [visitNode, if_neg h]

theorem groupQ_nil (n : Obj) (i : Option String) : groupQ n i [] = n := rfl

/-- Objects built by `group`'s two rewriting branches. -/
def Obj.isBatch : Obj → Bool
  | .anyOf _ _ | .allOf _ _ => true
  | _ => false

theorem groupQ_cases (n : Obj) (i : Option String) (vs : List Obj) :
    groupQ n i vs = n ∨ (groupQ n i vs).isBatch = true := by
  by_cases h : 1 < vs.length
  · cases n <;> simp [groupQ, h, Obj.isBatch]
  · left
    simp [groupQ, h]

/-- The function `visit` treats `Any`/`All` nodes (which `group` builds) as plain
leaves: they are neither operators nor `Eq`. -/
theorem visitQ_isBatch (o : Obj) (h : o.isBatch = true) :
    visitQ o = ⟨o, none, []⟩ := by
  cases o <;> first | rfl | exact absurd h (by simp [Obj.isBatch])

/-- Helper for `visitQ_idx_none`, covering the operator case. -/
theorem visitNode_idx_none (k : OpKind) (L R : VRes)
    (hL : L.idx = none → L.vals = []) (hR : R.idx = none → R.vals = [])
    (h : (visitNode k L R).idx = none) : (visitNode k L R).vals = [] := by
  by_cases hif : L.idx = R.idx
  · rw [visitNode_pos k L R hif] at h ⊢
    simp only at h ⊢
    rw [hL h, hR (hif ▸ h)]
    rfl
  · rw [visitNode_neg k L R hif]

/-- Invariant of the optimizer's `visit`: whenever it reports no common
index, the reported value list is empty.  (Hence `group` is never asked
to build a batched comparator with a `None` index.) -/
theorem visitQ_idx_none : (t : Obj) → (visitQ t).idx = none → (visitQ t).vals = []
  | .union l r, h =>
    visitNode_idx_none .u _ _ (visitQ_idx_none l) (visitQ_idx_none r) h
  | .inter l r, h =>
    visitNode_idx_none .i _ _ (visitQ_idx_none l) (visitQ_idx_none r) h
  | .diff l r, h =>
    visitNode_idx_none .d _ _ (visitQ_idx_none l) (visitQ_idx_none r) h
  | .eq _ _, h => by simp at h
  | .ostr _, _ => rfl
  | .oint _, _ => rfl
  | .olist _, _ => rfl
  | .otuple _, _ => rfl
  | .oname _, _ => rfl
  | .contains _ _, _ => rfl
  | .notEq _ _, _ => rfl
  | .gt _ _, _ => rfl
  | .lt _ _, _ => rfl
  | .ge _ _, _ => rfl
  | .le _ _, _ => rfl
  | .anyOf _ _, _ => rfl
  | .allOf _ _, _ => rfl

/-- Helper for `visitQ_visitQ`, covering the operator case. -/
theorem visitNode_idem (k : OpKind) (l r : Obj)
    (ihl : visitQ (visitQ l).node = visitQ l)
    (ihr : visitQ (visitQ r).node = visitQ r) :
    visitQ (visitQ (k.mk l r)).node = visitQ (k.mk l r) := by
  rw [visitQ_opmk]
  rcases hL : visitQ l with ⟨Ln, Li, Lv⟩
  rcases hR : visitQ r with ⟨Rn, Ri, Rv⟩
  rw [hL] at ihl
  rw [hR] at ihr
  by_cases hif : Li = Ri
  · rw [visitNode_pos k ⟨Ln, Li, Lv⟩ ⟨Rn, Ri, Rv⟩ hif]
    simp only
    rw [visitQ_opmk, ihl, ihr,
      visitNode_pos k ⟨Ln, Li, Lv⟩ ⟨Rn, Ri, Rv⟩ hif]
  · rw [visitNode_neg k ⟨Ln, Li, Lv⟩ ⟨Rn, Ri, Rv⟩ hif]
    simp only
    rw [visitQ_opmk]
    rcases groupQ_cases Ln Li Lv with hgl | hgl
    · rcases groupQ_cases Rn Ri Rv with hgr | hgr
      · -- neither child rewritten by `group`: the mismatch repeats
        rw [hgl, hgr, ihl, ihr,
          visitNode_neg k ⟨Ln, Li, Lv⟩ ⟨Rn, Ri, Rv⟩ hif, hgl, hgr]
      · -- right child collapsed to a batched comparator
        rw [hgl, ihl, visitQ_isBatch _ hgr]
        by_cases hLn : Li = (none : Option String)
        · have hLv : Lv = [] := by
            have := visitQ_idx_none l
            rw [hL] at this
            exact this hLn
          rw [visitNode_pos k ⟨Ln, Li, Lv⟩ ⟨groupQ Rn Ri Rv, none, []⟩ hLn]
          simp [hLn, hLv]
        · rw [visitNode_neg k ⟨Ln, Li, Lv⟩ ⟨groupQ Rn Ri Rv, none, []⟩ hLn]
          simp [hgl, groupQ_nil]
    · rcases groupQ_cases Rn Ri Rv with hgr | hgr
      · -- left child collapsed to a batched comparator
        rw [visitQ_isBatch _ hgl, hgr, ihr]
        by_cases hRn : (none : Option String) = Ri
        · have hRv : Rv = [] := by
            have := visitQ_idx_none r
            rw [hR] at this
            exact this hRn.symm
          rw [visitNode_pos k ⟨groupQ Ln Li Lv, none, []⟩ ⟨Rn, Ri, Rv⟩ hRn]
          simp [hRv]
        · rw [visitNode_neg k ⟨groupQ Ln Li Lv, none, []⟩ ⟨Rn, Ri, Rv⟩ hRn]
          simp [groupQ_nil, hgr]
      · -- both children collapsed to batched comparators
        rw [visitQ_isBatch _ hgl, visitQ_isBatch _ hgr]
        rw [visitNode_pos k ⟨groupQ Ln Li Lv, none, []⟩
          ⟨groupQ Rn Ri Rv, none, []⟩ rfl]
        simp

/-- The optimizer's `visit` is idempotent: re-visiting an already
rewritten subtree leaves it unchanged and reports the same index and
values. -/
theorem visitQ_visitQ : (t : Obj) → visitQ (visitQ t).node = visitQ t
  | .union l r => visitNode_idem .u l r (visitQ_visitQ l) (visitQ_visitQ r)
  | .inter l r => visitNode_idem .i l r (visitQ_visitQ l) (visitQ_visitQ r)
  | .diff l r => visitNode_idem .d l r (visitQ_visitQ l) (visitQ_visitQ r)
  | .eq _ _ => rfl
  | .ostr _ => rfl
  | .oint _ => rfl
  | .olist _ => rfl
  | .otuple _ => rfl
  | .oname _ => rfl
  | .contains _ _ => rfl
  | .notEq _ _ => rfl
  | .gt _ _ => rfl
  | .lt _ _ => rfl
  | .ge _ _ => rfl
  | .le _ _ => rfl
  | .anyOf _ _ => rfl
  | .allOf _ _ => rfl

/-- C9: For every query tree `t`, `optimize(optimize(t))` is
structurally equal to `optimize(t)` — `_group_any_and_all` is
idempotent. -/
theorem optimize_idempotent (t : Obj) :
    _group_any_and_all (_group_any_and_all t) = _group_any_and_all t := by
  have hdef : ∀ s, _group_any_and_all s =
      groupQ (visitQ s).node (visitQ s).idx (visitQ s).vals := fun _ => rfl
  rcases groupQ_cases (visitQ t).node (visitQ t).idx (visitQ t).vals with hg | hg
  · have h1 : _group_any_and_all t = (visitQ t).node := by rw [hdef t]; exact hg
    rw [h1, hdef ((visitQ t).node), visitQ_visitQ t]
    exact hg
  · have h2 : (_group_any_and_all t).isBatch = true := hg
    rw [hdef (_group_any_and_all t), visitQ_isBatch _ h2]
    exact groupQ_nil _ _

/-! ## Weighted result sets and evaluation (`apply`)

`WSet` models the BTrees `IF`-set collaborator as an association list of
`(document id, weight)` pairs.  `weightedUnionW`, `weightedIntersectionW`
and `differenceW` model `family.IF.weightedUnion` / `weightedIntersection`
/ `difference` per their documented merge semantics (weights added for
documents present in both operands; difference keeps the left weights).
The source destructures `(weight, results)` from the weighted merges and
keeps only `results`, which these models return directly.

`Obj.apply` embeds the per-class `apply(catalog)` methods.  To make the
short-circuiting observable (the spec's "collaborator that records
whether it was invoked"), it additionally returns the trace of
comparator-leaf index invocations in evaluation order. -/

/-- Weighted document set: association list of `(docid, weight)`. -/
abbrev WSet := List (Nat × Int)

/-- Weight lookup by document id. -/
def wLookup (d : Nat) : WSet → Option Int
  | [] => none
  | p :: rest => if p.1 = d then some p.2 else wLookup d rest

/-- Model of `IF.weightedUnion` (documents of either side; weights added
when present in both). -/
def weightedUnionW (a b : WSet) : WSet :=
  a.map (fun p => match wLookup p.1 b with | some w => (p.1, p.2 + w) | none => p)
    ++ b.filter (fun p => (wLookup p.1 a).isNone)

/-- Model of `IF.weightedIntersection` (documents of both sides, weights
added). -/
def weightedIntersectionW (a b : WSet) : WSet :=
  a.filterMap (fun p => (wLookup p.1 b).map (fun w => (p.1, p.2 + w)))

/-- Model of `IF.difference` (documents of the left side not present in
the right, left weights unchanged). -/
def differenceW (a b : WSet) : WSet :=
  a.filter (fun p => (wLookup p.1 b).isNone)

/-- Index collaborator: one `applyX` method per comparator class, each
taking the comparator's `value` and returning a weighted set. -/
structure IndexModel where
  applyContains : Obj → WSet
  applyEq : Obj → WSet
  applyNotEq : Obj → WSet
  applyGt : Obj → WSet
  applyLt : Obj → WSet
  applyGe : Obj → WSet
  applyLe : Obj → WSet
  applyAny : Obj → WSet
  applyAll : Obj → WSet

/-- Catalog collaborator: maps an index name to its index
(`catalog[self.index_name]`; the missing-index failure is outside the
claims, so the mapping is modelled as total). -/
abbrev Catalog := String → IndexModel

/-- Result of `apply`: the weighted set plus the trace of comparator
leaves whose index methods were invoked, in evaluation order. -/
structure AppRes where
  res : WSet
  trace : List Obj

/-- The `apply(catalog)` methods: a comparator looks up its index and
delegates to the matching `applyX` method; `Union.apply` evaluates both
children and merges; `Intersection.apply` and `Difference.apply`
short-circuit on an empty left result (`len(left) == 0`) and handle an
empty right result specially.  In the source `apply` is only ever
invoked on `Query` instances; the non-query fallback arm is
unreachable from the claims. -/
def Obj.apply : Obj → Catalog → AppRes
  | .contains i v, c => ⟨(c i).applyContains v, [.contains i v]⟩
  | .eq i v, c => ⟨(c i).applyEq v, [.eq i v]⟩
  | .notEq i v, c => ⟨(c i).applyNotEq v, [.notEq i v]⟩
  | .gt i v, c => ⟨(c i).applyGt v, [.gt i v]⟩
  | .lt i v, c => ⟨(c i).applyLt v, [.lt i v]⟩
  | .ge i v, c => ⟨(c i).applyGe v, [.ge i v]⟩
  | .le i v, c => ⟨(c i).applyLe v, [.le i v]⟩
  | .anyOf i v, c => ⟨(c i).applyAny v, [.anyOf i v]⟩
  | .allOf i v, c => ⟨(c i).applyAll v, [.allOf i v]⟩
  | .union l r, c =>
      let L := Obj.apply l c
      let R := Obj.apply r c
      ⟨weightedUnionW L.res R.res, L.trace ++ R.trace⟩
  | .inter l r, c =>
      let L := Obj.apply l c
      if L.res.length = 0 then ⟨[], L.trace⟩
      else
        let R := Obj.apply r c
        if R.res.length = 0 then ⟨[], L.trace ++ R.trace⟩
        else ⟨weightedIntersectionW L.res R.res, L.trace ++ R.trace⟩
  | .diff l r, c =>
      let L := Obj.apply l c
      if L.res.length = 0 then ⟨[], L.trace⟩
      else
        let R := Obj.apply r c
        if R.res.length = 0 then ⟨L.res, L.trace ++ R.trace⟩
        else ⟨differenceW L.res R.res, L.trace ++ R.trace⟩
  | _, _ => ⟨[], []⟩

theorem apply_inter (l r : Obj) (c : Catalog) :
    Obj.apply (.inter l r) c =
      if (Obj.apply l c).res.length = 0 then ⟨[], (Obj.apply l c).trace⟩
      else if (Obj.apply r c).res.length = 0 then
        ⟨[], (Obj.apply l c).trace ++ (Obj.apply r c).trace⟩
      else ⟨weightedIntersectionW (Obj.apply l c).res (Obj.apply r c).res,
            (Obj.apply l c).trace ++ (Obj.apply r c).trace⟩ := rfl

theorem apply_diff (l r : Obj) (c : Catalog) :
    Obj.apply (.diff l r) c =
      if (Obj.apply l c).res.length = 0 then ⟨[], (Obj.apply l c).trace⟩
      else if (Obj.apply r c).res.length = 0 then
        ⟨(Obj.apply l c).res, (Obj.apply l c).trace ++ (Obj.apply r c).trace⟩
      else ⟨differenceW (Obj.apply l c).res (Obj.apply r c).res,
            (Obj.apply l c).trace ++ (Obj.apply r c).trace⟩ := rfl

/-- C3: `Intersection.apply` evaluates the left child first; if its
result is empty it returns an empty set with the right child never
evaluated (the invocation trace is exactly the left child's); otherwise
it evaluates the right child, returning an empty set if that result is
empty, and the weighted intersection of the two results otherwise. -/
theorem Intersection_apply_spec (l r : Obj) (c : Catalog) :
    ((Obj.apply l c).res = [] →
      Obj.apply (.inter l r) c = ⟨[], (Obj.apply l c).trace⟩) ∧
    ((Obj.apply l c).res ≠ [] → (Obj.apply r c).res = [] →
      Obj.apply (.inter l r) c =
        ⟨[], (Obj.apply l c).trace ++ (Obj.apply r c).trace⟩) ∧
    ((Obj.apply l c).res ≠ [] → (Obj.apply r c).res ≠ [] →
      Obj.apply (.inter l r) c =
        ⟨weightedIntersectionW (Obj.apply l c).res (Obj.apply r c).res,
         (Obj.apply l c).trace ++ (Obj.apply r c).trace⟩) := by
  refine ⟨fun hl => ?_, fun hl hr => ?_, fun hl hr => ?_⟩
  · rw [apply_inter, if_pos (List.length_eq_zero.mpr hl)]
  · rw [apply_inter, if_neg (by simpa using hl), if_pos (List.length_eq_zero.mpr hr)]
  · rw [apply_inter, if_neg (by simpa using hl), if_neg (by simpa using hr)]

/-- C4: `Difference.apply` evaluates the left child first; if its result
is empty, the result is empty and the right child is never evaluated;
otherwise the right child is evaluated: an empty right result yields
exactly the left result, and otherwise the result is the left result
minus every document id present in the right result, surviving documents
keeping the left weights unchanged. -/
theorem Difference_apply_spec (l r : Obj) (c : Catalog) :
    ((Obj.apply l c).res = [] →
      Obj.apply (.diff l r) c = ⟨[], (Obj.apply l c).trace⟩) ∧
    ((Obj.apply l c).res ≠ [] → (Obj.apply r c).res = [] →
      Obj.apply (.diff l r) c =
        ⟨(Obj.apply l c).res, (Obj.apply l c).trace ++ (Obj.apply r c).trace⟩) ∧
    ((Obj.apply l c).res ≠ [] → (Obj.apply r c).res ≠ [] →
      (Obj.apply (.diff l r) c).trace =
        (Obj.apply l c).trace ++ (Obj.apply r c).trace ∧
      ∀ d w, (d, w) ∈ (Obj.apply (.diff l r) c).res ↔
        ((d, w) ∈ (Obj.apply l c).res ∧ wLookup d (Obj.apply r c).res = none)) := by
  refine ⟨fun hl => ?_, fun hl hr => ?_, fun hl hr => ?_⟩
  · rw [apply_diff, if_pos (List.length_eq_zero.mpr hl)]
  · rw [apply_diff, if_neg (by simpa using hl), if_pos (List.length_eq_zero.mpr hr)]
  · rw [apply_diff, if_neg (by simpa using hl), if_neg (by simpa using hr)]
    refine ⟨rfl, fun d w => ?_⟩
    simp [differenceW, List.mem_filter, Option.isNone_iff_eq_none]

/-! ## The chainable `SearchQuery` accumulator

The accumulator's `catalog` attribute is fixed at construction; the
embedding passes it as an explicit argument.  The `results` property
materializes an empty set when the stored `_results` is `None`.  `And`
and `Not` return `self` untouched when the current results are empty;
the returned trace records which comparator leaves of the argument query
were evaluated (empty trace = the query was never evaluated). -/

/-- State of a `SearchQuery`: the `_results` attribute (`None` until set). -/
structure SearchQuery where
  _results : Option WSet

/-- The `results` property getter: an empty set when `_results is None`. -/
def SearchQuery.results (s : SearchQuery) : WSet := s._results.getD []

/-- The method `SearchQuery.And(query)`: no-op on empty current results; otherwise
evaluate the query, intersect when its result is truthy (non-empty), and
set the results to a fresh empty set when it is empty. -/
def SearchQuery.And (s : SearchQuery) (query : Obj) (c : Catalog) :
    SearchQuery × List Obj :=
  if s.results.length = 0 then (s, [])
  else
    let A := Obj.apply query c
    if A.res ≠ [] then (⟨some (weightedIntersectionW s.results A.res)⟩, A.trace)
    else (⟨some []⟩, A.trace)

/-- The method `SearchQuery.Not(query)`: no-op on empty current results; otherwise
evaluate the query and subtract its result when truthy (non-empty);
an empty query result leaves the results unchanged. -/
def SearchQuery.Not (s : SearchQuery) (query : Obj) (c : Catalog) :
    SearchQuery × List Obj :=
  if s.results.length = 0 then (s, [])
  else
    let A := Obj.apply query c
    if A.res ≠ [] then (⟨some (differenceW s.results A.res)⟩, A.trace)
    else (s, A.trace)

/-- C5: on an accumulator with empty current results, `And` and `Not`
return the accumulator unchanged without evaluating the argument query
(empty invocation trace); on non-empty results, `And` evaluates the
query and intersects when the query's result is non-empty, and sets the
accumulated results to empty when the query's result is empty. -/
theorem SearchQuery_And_Not_spec (s : SearchQuery) (q : Obj) (c : Catalog) :
    (s.results = [] →
      SearchQuery.And s q c = (s, []) ∧ SearchQuery.Not s q c = (s, [])) ∧
    (s.results ≠ [] → (Obj.apply q c).res ≠ [] →
      SearchQuery.And s q c =
        (⟨some (weightedIntersectionW s.results (Obj.apply q c).res)⟩,
         (Obj.apply q c).trace)) ∧
    (s.results ≠ [] → (Obj.apply q c).res = [] →
      SearchQuery.And s q c = (⟨some []⟩, (Obj.apply q c).trace)) := by
  refine ⟨fun h => ?_, fun hs hq => ?_, fun hs hq => ?_⟩
  · constructor
    · rw [SearchQuery.And, if_pos (List.length_eq_zero.mpr h)]
    · rw [SearchQuery.Not, if_pos (List.length_eq_zero.mpr h)]
  · rw [SearchQuery.And, if_neg (by simpa using hs)]
    simp only [if_pos hq]
  · rw [SearchQuery.And, if_neg (by simpa using hs)]
    simp only [hq, ne_eq, not_true_eq_false, if_false]

/-! ## Concrete collaborators for witnesses and counterexamples -/

/-- A model index: `applyEq` answers two documents, `applyGt` one
overlapping document, everything else nothing. -/
def idxW : IndexModel where
  applyContains := fun _ => []
  applyEq := fun _ => [(1, 1), (2, 1)]
  applyNotEq := fun _ => []
  applyGt := fun _ => [(2, 5)]
  applyLt := fun _ => []
  applyGe := fun _ => []
  applyLe := fun _ => []
  applyAny := fun _ => []
  applyAll := fun _ => []

/-- A catalog answering every index name with `idxW`. -/
def catW : Catalog := fun _ => idxW

/-- Witness for `Intersection_apply_spec` at concrete inputs: an empty
left child short-circuits (trace shows the right child untouched); an
empty right child empties the result; two non-empty children produce the
weighted intersection. -/
theorem Intersection_apply_spec_witness :
    Obj.apply (.inter (.notEq "a" (.oint 0)) (.eq "a" (.oint 0))) catW =
      ⟨[], [.notEq "a" (.oint 0)]⟩ ∧
    Obj.apply (.inter (.eq "a" (.oint 0)) (.notEq "a" (.oint 0))) catW =
      ⟨[], [.eq "a" (.oint 0), .notEq "a" (.oint 0)]⟩ ∧
    Obj.apply (.inter (.eq "a" (.oint 0)) (.gt "a" (.oint 0))) catW =
      ⟨[(2, 6)], [.eq "a" (.oint 0), .gt "a" (.oint 0)]⟩ :=
  ⟨(Intersection_apply_spec (.notEq "a" (.oint 0)) (.eq "a" (.oint 0)) catW).1 rfl,
   (Intersection_apply_spec (.eq "a" (.oint 0)) (.notEq "a" (.oint 0)) catW).2.1
     (by decide) rfl,
   (Intersection_apply_spec (.eq "a" (.oint 0)) (.gt "a" (.oint 0)) catW).2.2
     (by decide) (by decide)⟩

/-- Witness for `Difference_apply_spec` at concrete inputs, including
the membership characterization of the subtracted result: document 2 is
removed (present in the right result), document 1 survives with its left
weight. -/
theorem Difference_apply_spec_witness :
    Obj.apply (.diff (.notEq "a" (.oint 0)) (.eq "a" (.oint 0))) catW =
      ⟨[], [.notEq "a" (.oint 0)]⟩ ∧
    Obj.apply (.diff (.eq "a" (.oint 0)) (.notEq "a" (.oint 0))) catW =
      ⟨[(1, 1), (2, 1)], [.eq "a" (.oint 0), .notEq "a" (.oint 0)]⟩ ∧
    (Obj.apply (.diff (.eq "a" (.oint 0)) (.gt "a" (.oint 0))) catW).trace =
      [.eq "a" (.oint 0), .gt "a" (.oint 0)] ∧
    ((1, 1) ∈ (Obj.apply (.diff (.eq "a" (.oint 0)) (.gt "a" (.oint 0))) catW).res ↔
      ((1, 1) ∈ (Obj.apply (.eq "a" (.oint 0)) catW).res ∧
       wLookup 1 (Obj.apply (.gt "a" (.oint 0)) catW).res = none)) :=
  ⟨(Difference_apply_spec (.notEq "a" (.oint 0)) (.eq "a" (.oint 0)) catW).1 rfl,
   (Difference_apply_spec (.eq "a" (.oint 0)) (.notEq "a" (.oint 0)) catW).2.1
     (by decide) rfl,
   ((Difference_apply_spec (.eq "a" (.oint 0)) (.gt "a" (.oint 0)) catW).2.2
     (by decide) (by decide)).1,
   ((Difference_apply_spec (.eq "a" (.oint 0)) (.gt "a" (.oint 0)) catW).2.2
     (by decide) (by decide)).2 1 1⟩

/-- Witness for `SearchQuery_And_Not_spec` at concrete inputs: an empty
accumulator is returned unchanged with an empty trace by both `And` and
`Not`; a non-empty accumulator intersects with a non-empty query result
and is emptied by an empty query result. -/
theorem SearchQuery_And_Not_spec_witness :
    SearchQuery.And ⟨none⟩ (.eq "a" (.oint 0)) catW = (⟨none⟩, []) ∧
    SearchQuery.Not ⟨none⟩ (.eq "a" (.oint 0)) catW = (⟨none⟩, []) ∧
    SearchQuery.And ⟨some [(2, 7)]⟩ (.eq "a" (.oint 0)) catW =
      (⟨some [(2, 8)]⟩, [.eq "a" (.oint 0)]) ∧
    SearchQuery.And ⟨some [(2, 7)]⟩ (.notEq "a" (.oint 0)) catW =
      (⟨some []⟩, [.notEq "a" (.oint 0)]) :=
  ⟨((SearchQuery_And_Not_spec ⟨none⟩ (.eq "a" (.oint 0)) catW).1 rfl).1,
   ((SearchQuery_And_Not_spec ⟨none⟩ (.eq "a" (.oint 0)) catW).1 rfl).2,
   (SearchQuery_And_Not_spec ⟨some [(2, 7)]⟩ (.eq "a" (.oint 0)) catW).2.1
     (by decide) (by decide),
   (SearchQuery_And_Not_spec ⟨some [(2, 7)]⟩ (.notEq "a" (.oint 0)) catW).2.2
     (by decide) rfl⟩

/-! ## Pure `Eq` runs (optimizer correctness on homogeneous trees) -/

/-- Shapes of trees built purely from `Eq` leaves joined by one operator
kind: `toInterQ i t` is the tree with every leaf `Eq(i, v)` and every
join `Intersection`; `toUnionQ i t` the same with `Union` joins. -/
inductive EqTree where
  | leaf (v : Obj)
  | node (l r : EqTree)

/-- The pure-`Intersection` tree of this shape over index `i`. -/
def EqTree.toInterQ (i : String) : EqTree → Obj
  | .leaf v => .eq i v
  | .node l r => .inter (l.toInterQ i) (r.toInterQ i)

/-- The pure-`Union` tree of this shape over index `i`. -/
def EqTree.toUnionQ (i : String) : EqTree → Obj
  | .leaf v => .eq i v
  | .node l r => .union (l.toUnionQ i) (r.toUnionQ i)

/-- Leaf values in left-to-right (depth-first) order. -/
def EqTree.leaves : EqTree → List Obj
  | .leaf v => [v]
  | .node l r => l.leaves ++ r.leaves

theorem EqTree.leaves_length_pos : (t : EqTree) → 0 < t.leaves.length
  | .leaf _ => by simp [EqTree.leaves]
  | .node l r => by
    have := EqTree.leaves_length_pos l
    simp only [EqTree.leaves, List.length_append]
    omega

theorem groupQ_of_inter (a b : Obj) (i : Option String) (vs : List Obj)
    (h : 1 < vs.length) :
    groupQ (.inter a b) i vs = .allOf (i.getD "") (.olist vs) := by
  rw [groupQ, if_pos h]

theorem groupQ_of_union (a b : Obj) (i : Option String) (vs : List Obj)
    (h : 1 < vs.length) :
    groupQ (.union a b) i vs = .anyOf (i.getD "") (.olist vs) := by
  rw [groupQ, if_pos h]

/-- On a pure-`Intersection` tree of `Eq(i, ·)` leaves, `visit` reports
the common index `i` and the leaf values in depth-first order, leaving
the tree unrewritten. -/
theorem visitQ_toInterQ (i : String) :
    (t : EqTree) → visitQ (t.toInterQ i) = ⟨t.toInterQ i, some i, t.leaves⟩
  | .leaf v => rfl
  | .node l r => by
    have hl := visitQ_toInterQ i l
    have hr := visitQ_toInterQ i r
    show visitNode .i (visitQ (l.toInterQ i)) (visitQ (r.toInterQ i)) = _
    rw [hl, hr, visitNode_pos .i ⟨l.toInterQ i, some i, l.leaves⟩
      ⟨r.toInterQ i, some i, r.leaves⟩ rfl]
    rfl

/-- On a pure-`Union` tree of `Eq(i, ·)` leaves, `visit` reports the
common index `i` and the leaf values in depth-first order, leaving the
tree unrewritten. -/
theorem visitQ_toUnionQ (i : String) :
    (t : EqTree) → visitQ (t.toUnionQ i) = ⟨t.toUnionQ i, some i, t.leaves⟩
  | .leaf v => rfl
  | .node l r => by
    have hl := visitQ_toUnionQ i l
    have hr := visitQ_toUnionQ i r
    show visitNode .u (visitQ (l.toUnionQ i)) (visitQ (r.toUnionQ i)) = _
    rw [hl, hr, visitNode_pos .u ⟨l.toUnionQ i, some i, l.leaves⟩
      ⟨r.toUnionQ i, some i, r.leaves⟩ rfl]
    rfl

/-- C2: a tree built purely from `Eq` leaves on one index `i` and joined
only by `Intersection` nodes (at least one join, hence at least two
leaves) is optimized to the single comparator `All(i, values)` with the
leaf values in left-to-right depth-first order; the same shape joined
only by `Union` nodes is optimized to `Any(i, values)` with the same
ordering. -/
theorem optimize_pure_eq_runs (i : String) (l r : EqTree) :
    _group_any_and_all ((EqTree.node l r).toInterQ i) =
      .allOf i (.olist (EqTree.node l r).leaves) ∧
    _group_any_and_all ((EqTree.node l r).toUnionQ i) =
      .anyOf i (.olist (EqTree.node l r).leaves) := by
  have hlen : 1 < (EqTree.node l r).leaves.length := by
    have h1 := EqTree.leaves_length_pos l
    have h2 := EqTree.leaves_length_pos r
    simp only [EqTree.leaves, List.length_append]
    omega
  constructor
  · show groupQ (visitQ ((EqTree.node l r).toInterQ i)).node
      (visitQ ((EqTree.node l r).toInterQ i)).idx
      (visitQ ((EqTree.node l r).toInterQ i)).vals = _
    rw [visitQ_toInterQ i (EqTree.node l r)]
    exact groupQ_of_inter _ _ _ _ hlen
  · show groupQ (visitQ ((EqTree.node l r).toUnionQ i)).node
      (visitQ ((EqTree.node l r).toUnionQ i)).idx
      (visitQ ((EqTree.node l r).toUnionQ i)).vals = _
    rw [visitQ_toUnionQ i (EqTree.node l r)]
    exact groupQ_of_union _ _ _ _ hlen

/-! ## The optimizer on mixed operator kinds (claim C1)

The source's `visit` merges children's values whenever the two children
report the *same index name*; it never compares the operator kinds along
the run, so a `Union` over an `Intersection` (or a `Difference` inside a
run) of `Eq` leaves on one index is also collapsed into a single batched
comparator — changing the query's meaning. -/

/-- Whether an object is the integer `n`. -/
def objIsInt (n : Int) : Obj → Bool
  | .oint m => m == n
  | _ => false

/-- A single-valued field index over documents `(docid, value)` with
weight 1 per match: `applyEq v` answers the documents whose value is
`v`; `applyAny vs` those whose value is an element of `vs`; `applyAll
vs` those whose value equals every element of `vs`. -/
def fieldIndex (docs : List (Nat × Int)) : IndexModel where
  applyContains := fun _ => []
  applyEq := fun v => (docs.filter (fun p => objIsInt p.2 v)).map (fun p => (p.1, 1))
  applyNotEq := fun v => (docs.filter (fun p => ! objIsInt p.2 v)).map (fun p => (p.1, 1))
  applyGt := fun _ => []
  applyLt := fun _ => []
  applyGe := fun _ => []
  applyLe := fun _ => []
  applyAny := fun v =>
    match v with
    | .olist vs => (docs.filter (fun p => vs.any (objIsInt p.2))).map (fun p => (p.1, 1))
    | _ => []
  applyAll := fun v =>
    match v with
    | .olist vs => (docs.filter (fun p => vs.all (objIsInt p.2))).map (fun p => (p.1, 1))
    | _ => []

/-- A tree whose operator kinds are mixed: a `Union` over an
`Intersection`, all leaves `Eq` on index `"i"`. -/
def mixedKindTree : Obj :=
  .union (.eq "i" (.oint 1)) (.inter (.eq "i" (.oint 2)) (.eq "i" (.oint 3)))

/-- A catalog with one document, id 7, whose `"i"` value is 2. -/
def catF : Catalog := fun _ => fieldIndex [(7, 2)]

/-- C1 (the code violates the claim): `_group_any_and_all` collapses the
mixed-kind tree `Union(Eq(i,1), Intersection(Eq(i,2), Eq(i,3)))` into
`Any(i, [1,2,3])` — it never checks operator kinds along a run — and the
rewrite changes the query's result: against a field index where document
7 has value 2, the original tree matches nothing while the optimized
tree matches document 7.  A `Difference` inside a run is likewise folded
into the batched comparator. -/
theorem optimizer_mixed_run_collapsed :
    _group_any_and_all mixedKindTree =
      .anyOf "i" (.olist [.oint 1, .oint 2, .oint 3]) ∧
    (Obj.apply mixedKindTree catF).res = [] ∧
    (Obj.apply (_group_any_and_all mixedKindTree) catF).res = [(7, 1)] ∧
    _group_any_and_all
        (.union (.diff (.eq "i" (.oint 1)) (.eq "i" (.oint 2))) (.eq "i" (.oint 3))) =
      .anyOf "i" (.olist [.oint 1, .oint 2, .oint 3]) :=
  ⟨rfl, rfl, rfl, rfl⟩

/-! ## Python exceptions and the combinator operators -/

/-- The exception classes this module can raise (`TypeError`,
`ValueError`, `NameError`, `IndexError`), plus the host parser's own
syntax-error class, which `ast.parse` raises for malformed text (the
module itself never raises it). -/
inductive PyErr where
  | typeError (msg : String)
  | valueError (msg : String)
  | nameError (id : String)
  | indexError
  | synError (msg : String)
  deriving DecidableEq

/-- The Python class name of an object, as interpolated into the
`TypeError` message by `_check_type` (`type(x)`). -/
def Obj.typeName : Obj → String
  | .ostr _ => "str"
  | .oint _ => "int"
  | .olist _ => "list"
  | .otuple _ => "tuple"
  | .oname _ => "Name"
  | .contains _ _ => "Contains"
  | .eq _ _ => "Eq"
  | .notEq _ _ => "NotEq"
  | .gt _ _ => "Gt"
  | .lt _ _ => "Lt"
  | .ge _ _ => "Ge"
  | .le _ _ => "Le"
  | .anyOf _ _ => "Any"
  | .allOf _ _ => "All"
  | .union _ _ => "Union"
  | .inter _ _ => "Intersection"
  | .diff _ _ => "Difference"

/-- The method `Query._check_type(operator, operand)`: raise a `TypeError` naming
both operand types when the operand is not a `Query`. -/
def _check_type (operator : String) (self operand : Obj) : Except PyErr Unit :=
  if operand.isQuery then .ok ()
  else .error (.typeError ("TypeError: unsupported operand types for " ++ operator
    ++ ": " ++ self.typeName ++ " " ++ operand.typeName))

/-- The method `Query.__and__` (the `AND` combinator): type-check, then build an
`Intersection` with `self` on the left. -/
def __and__ (self right : Obj) : Except PyErr Obj :=
  match _check_type "set intersection" self right with
  | .error e => .error e
  | .ok _ => .ok (.inter self right)

/-- The method `Query.__or__` (the `OR` combinator): type-check, then build a
`Union` with `self` on the left. -/
def __or__ (self right : Obj) : Except PyErr Obj :=
  match _check_type "set union" self right with
  | .error e => .error e
  | .ok _ => .ok (.union self right)

/-- The method `Query.__sub__` (the `SUB` combinator): type-check, then build a
`Difference` with `self` on the left. -/
def __sub__ (self right : Obj) : Except PyErr Obj :=
  match _check_type "set difference" self right with
  | .error e => .error e
  | .ok _ => .ok (.diff self right)

/-- C8: on any query node, the combinators `AND`/`OR`/`SUB` build
`Intersection`/`Union`/`Difference` with `self` as left child and the
operand as right child when the operand is a query node, and fail with a
`TypeError` naming both operand types when it is not. -/
theorem combinator_operators_spec (self right : Obj) (_hq : self.isQuery = true) :
    (right.isQuery = true →
      __and__ self right = .ok (.inter self right) ∧
      __or__ self right = .ok (.union self right) ∧
      __sub__ self right = .ok (.diff self right)) ∧
    (right.isQuery = false →
      __and__ self right = .error (.typeError
        ("TypeError: unsupported operand types for set intersection: "
          ++ self.typeName ++ " " ++ right.typeName)) ∧
      __or__ self right = .error (.typeError
        ("TypeError: unsupported operand types for set union: "
          ++ self.typeName ++ " " ++ right.typeName)) ∧
      __sub__ self right = .error (.typeError
        ("TypeError: unsupported operand types for set difference: "
          ++ self.typeName ++ " " ++ right.typeName))) := by
  constructor
  · intro h
    refine ⟨?_, ?_, ?_⟩ <;> simp [__and__, __or__, __sub__, _check_type, h]
  · intro h
    refine ⟨?_, ?_, ?_⟩ <;> simp [__and__, __or__, __sub__, _check_type, h]

/-- Witness for `combinator_operators_spec`: a comparator operand builds
the operator node; an integer operand raises the `TypeError` naming both
types. -/
theorem combinator_operators_spec_witness :
    (__and__ (.eq "a" (.oint 1)) (.gt "b" (.oint 2)) =
        .ok (.inter (.eq "a" (.oint 1)) (.gt "b" (.oint 2))) ∧
      __or__ (.eq "a" (.oint 1)) (.gt "b" (.oint 2)) =
        .ok (.union (.eq "a" (.oint 1)) (.gt "b" (.oint 2))) ∧
      __sub__ (.eq "a" (.oint 1)) (.gt "b" (.oint 2)) =
        .ok (.diff (.eq "a" (.oint 1)) (.gt "b" (.oint 2)))) ∧
    __and__ (.eq "a" (.oint 1)) (.oint 3) =
      .error (.typeError
        "TypeError: unsupported operand types for set intersection: Eq int") :=
  ⟨(combinator_operators_spec (.eq "a" (.oint 1)) (.gt "b" (.oint 2)) rfl).1 rfl,
   ((combinator_operators_spec (.eq "a" (.oint 1)) (.oint 3) rfl).2 rfl).1⟩

/-! ## The expression compiler (`_AstQuery` / `parse_query`)

The host `ast` parser is external: the embedding starts from the parsed
module, a list of statements whose expressions are drawn from the node
kinds the compiler handles (`Name`, `Str`, `Num`, `List`, `Tuple`,
`Compare` with a single comparison operator, `BinOp`, `BoolOp`), plus a
constructor for any other node kind, which has no registered
`process_X` handler.  `ast.iter_child_nodes` visits children left to
right before the parent's processor runs, which the embedding mirrors by
walking sub-expressions in order before dispatching. -/

/-- The comparison-operator AST nodes handled by `process_Eq`,
`process_NotEq`, `process_Lt`, `process_LtE`, `process_Gt`,
`process_GtE` and `process_In`. -/
inductive CmpAst where
  | cEq | cNotEq | cLt | cLtE | cGt | cGtE | cIn
  deriving DecidableEq

/-- The comparator class each comparison-operator node maps to. -/
def cmpCls : CmpAst → String → Obj → Obj
  | .cEq => .eq
  | .cNotEq => .notEq
  | .cLt => .lt
  | .cLtE => .le
  | .cGt => .gt
  | .cGtE => .ge
  | .cIn => .contains

/-- The binary-operator AST nodes handled by `process_BitOr`,
`process_BitAnd` and `process_Sub`. -/
inductive BinAst where
  | bitOr | bitAnd | subB
  deriving DecidableEq

/-- The operator class each binary-operator node maps to. -/
def binCls : BinAst → Obj → Obj → Obj
  | .bitOr => .union
  | .bitAnd => .inter
  | .subB => .diff

/-- The `operator.__name__` string for the binary-operator classes. -/
def binClsName : BinAst → String
  | .bitOr => "Union"
  | .bitAnd => "Intersection"
  | .subB => "Difference"

/-- The boolean-operator AST nodes handled by `process_Or` and
`process_And`. -/
inductive BoolAst where
  | orB | andB
  deriving DecidableEq

/-- The operator class each boolean-operator node maps to. -/
def boolCls : BoolAst → Obj → Obj → Obj
  | .orB => .union
  | .andB => .inter

/-- The `operator.__name__` string for the boolean-operator classes. -/
def boolClsName : BoolAst → String
  | .orB => "Union"
  | .andB => "Intersection"

/-- The parsed-expression nodes the compiler can meet.  A `BoolOp` node
always has at least two operands (guaranteed by the host grammar), which
the shape `astBoolOp op v1 v2 rest` makes structural.  `astOther` stands
for any node kind without a registered `process_X` handler; such a node
is modelled atomically. -/
inductive PyAst where
  | astName (id : String)
  | astStr (s : String)
  | astNum (n : Int)
  | astList (elts : List PyAst)
  | astTuple (elts : List PyAst)
  | astCompare (left : PyAst) (op : CmpAst) (right : PyAst)
  | astBinOp (left : PyAst) (op : BinAst) (right : PyAst)
  | astBoolOp (op : BoolAst) (v1 v2 : PyAst) (rest : List PyAst)
  | astOther (kind : String)

/-- The caller-supplied name table (the `names` dict). -/
abbrev Names := List (String × Obj)

/-- Dictionary lookup in the name table. -/
def lookupName : Names → String → Option Obj
  | [], _ => none
  | (k, v) :: rest, id => if k = id then some v else lookupName rest id

/-- The method `_AstQuery._value(node)`: resolve an `ast.Name` through the name
table (raising `NameError(node.id)` when absent); return anything else
unchanged. -/
def _value (names : Names) (node : Obj) : Except PyErr Obj :=
  match node with
  | .oname id =>
    match lookupName names id with
    | some v => .ok v
    | none => .error (.nameError id)
  | _ => .ok node

/-- The method `_AstQuery._index_name(node)`: the operand in index position must be
a bare `ast.Name`; its `id` is used literally, never resolved through
the name table. -/
def _index_name (node : Obj) : Except PyErr String :=
  match node with
  | .oname id => .ok id
  | _ => .error (.valueError "Index name must be a name.")

/-- The handler `process_Compare`: for the membership test (`In`) the index name is
taken from the right-hand syntactic operand and the value from the
left-hand one; for every other comparison the left operand is the index
and the right the value.  `_index_name` runs before `_value` in both
cases (Python evaluates call arguments left to right). -/
def process_Compare (names : Names) (operand1 : Obj) (operator : CmpAst)
    (operand2 : Obj) : Except PyErr Obj :=
  match operator with
  | .cIn => do
      let i ← _index_name operand2
      let v ← _value names operand1
      return .contains i v
  | op => do
      let i ← _index_name operand1
      let v ← _value names operand2
      return cmpCls op i v

/-- The handler `process_BinOp`: both operands must already be query nodes, else a
`ValueError` naming the operator class. -/
def process_BinOp (left : Obj) (operator : BinAst) (right : Obj) :
    Except PyErr Obj :=
  if ¬ left.isQuery then
    .error (.valueError ("Bad expression: left operand for "
      ++ binClsName operator ++ " must be a result set."))
  else if ¬ right.isQuery then
    .error (.valueError ("Bad expression: right operand for "
      ++ binClsName operator ++ " must be a result set."))
  else .ok (binCls operator left right)

/-- The handler `process_BoolOp`: every operand must be a query node (the failure
message is the same whichever operand offends), then the operands are
folded left into a chain of the operator class. -/
def process_BoolOp (operator : BoolAst) (o1 o2 : Obj) (rest : List Obj) :
    Except PyErr Obj :=
  if (o1 :: o2 :: rest).all Obj.isQuery then
    .ok (rest.foldl (boolCls operator) (boolCls operator o1 o2))
  else
    .error (.valueError ("Bad expression: All operands for "
      ++ boolClsName operator ++ " must be result sets."))

/-- The handler `process_List`'s element resolution: `ast.Name` elements are
resolved through `_value`; `_value` is the identity on every other
element, so applying it uniformly is equivalent to the source's
`isinstance(l[i], ast.Name)` guard. -/
def resolveElts (names : Names) : List Obj → Except PyErr (List Obj)
  | [] => .ok []
  | o :: os => do
      let o' ← _value names o
      let os' ← resolveElts names os
      return o' :: os'

mutual

/-- The compiler's `_AstQuery.walk` inner `visit`: walk sub-expressions left to right, then
dispatch on the node kind; a node kind without a registered handler
raises the unhandled-element `ValueError`. -/
def walk (names : Names) : PyAst → Except PyErr Obj
  | .astName id => .ok (.oname id)
  | .astStr s => .ok (.ostr s)
  | .astNum n => .ok (.oint n)
  | .astList elts => do
      let objs ← walkAll names elts
      let resolved ← resolveElts names objs
      return .olist resolved
  | .astTuple elts => do
      let objs ← walkAll names elts
      let resolved ← resolveElts names objs
      return .otuple resolved
  | .astCompare l op r => do
      let o1 ← walk names l
      let o2 ← walk names r
      process_Compare names o1 op o2
  | .astBinOp l op r => do
      let o1 ← walk names l
      let o2 ← walk names r
      process_BinOp o1 op o2
  | .astBoolOp op v1 v2 rest => do
      let o1 ← walk names v1
      let o2 ← walk names v2
      let os ← walkAll names rest
      process_BoolOp op o1 o2 os
  | .astOther kind =>
      .error (.valueError ("Unable to parse expression.  Unhandled expression element: "
        ++ kind))

/-- Walk a list of sub-expressions left to right, failing on the first
error. -/
def walkAll (names : Names) : List PyAst → Except PyErr (List Obj)
  | [] => .ok []
  | e :: es => do
      let o ← walk names e
      let os ← walkAll names es
      return o :: os

end

/-- A parsed module statement: an expression statement (`ast.Expr`) or
any other statement kind. -/
inductive Stmt where
  | sexpr (e : PyAst)
  | sother (kind : String)

/-- The constructor `_AstQuery.__init__` plus `walk`: more than one statement raises
`ValueError("Can only process single expression.")`; a single
non-expression statement raises `ValueError("Not an expression.")`;
an empty module hits `statements[0]` and raises `IndexError`. -/
def _AstQuery (stmts : List Stmt) (names : Names) : Except PyErr Obj :=
  if stmts.length > 1 then .error (.valueError "Can only process single expression.")
  else
    match stmts with
    | [] => .error .indexError
    | s :: _ =>
      match s with
      | .sexpr e => walk names e
      | .sother _ => .error (.valueError "Not an expression.")

/-- The entry point `parse_query(expr, names)`: compile the module, then run the
optimizer over the resulting tree. -/
def parse_query (stmts : List Stmt) (names : Names) : Except PyErr Obj :=
  match _AstQuery stmts names with
  | .ok q => .ok (_group_any_and_all q)
  | .error e => .error e

/-- C6: for every name table, compiling `"idx == 'x'"` yields
`Eq("idx", "x")`; compiling `"idx1 == 1 and idx2 == 2"` yields
`Intersection(Eq("idx1", 1), Eq("idx2", 2))`; compiling `"'v' in idx"`
yields `Contains("idx", "v")` — the index name comes from the right-hand
syntactic operand of the membership test and the value from the
left-hand one, and the name in index position is used literally: the
result does not depend on the name table. -/
theorem parse_query_roundtrip (names : Names) :
    parse_query [.sexpr (.astCompare (.astName "idx") .cEq (.astStr "x"))] names =
      .ok (.eq "idx" (.ostr "x")) ∧
    parse_query [.sexpr (.astBoolOp .andB
        (.astCompare (.astName "idx1") .cEq (.astNum 1))
        (.astCompare (.astName "idx2") .cEq (.astNum 2)) [])] names =
      .ok (.inter (.eq "idx1" (.oint 1)) (.eq "idx2" (.oint 2))) ∧
    parse_query [.sexpr (.astCompare (.astStr "v") .cIn (.astName "idx"))] names =
      .ok (.contains "idx" (.ostr "v")) :=
  ⟨rfl, rfl, rfl⟩

/-! ## Rejection behavior of the compiler (claims C7, C10) -/

/-- The parsed module of `"idx == 1; idx2 == 2"`: two expression
statements (the host parser accepts semicolon-separated statements). -/
def twoStmts : List Stmt :=
  [.sexpr (.astCompare (.astName "idx") .cEq (.astNum 1)),
   .sexpr (.astCompare (.astName "idx2") .cEq (.astNum 2))]

/-- Whether a compilation outcome is the host parser's syntax error. -/
def isSynError : Except PyErr Obj → Bool
  | .error (.synError _) => true
  | _ => false

/-- C7 (the claim's error class is wrong): compiling the two-statement
module `"idx == 1; idx2 == 2"` fails with
`ValueError("Can only process single expression.")` raised by
`_AstQuery.__init__`, not with a `SyntaxError`. -/
theorem multi_statement_not_syntax_error :
    parse_query twoStmts [] = .error (.valueError "Can only process single expression.") ∧
    isSynError (parse_query twoStmts []) = false :=
  ⟨rfl, rfl⟩

theorem parse_query_error (stmts : List Stmt) (names : Names) (err : PyErr)
    (h : _AstQuery stmts names = .error err) :
    parse_query stmts names = .error err := by
  rw [parse_query, h]

/-- C7 (amended): an input of more than one statement fails with
`ValueError("Can only process single expression.")`, a single
non-expression statement with `ValueError("Not an expression.")`; in
both cases no partial tree is returned. -/
theorem multi_statement_value_error (s1 s2 : Stmt) (rest : List Stmt)
    (k : String) (names : Names) :
    parse_query (s1 :: s2 :: rest) names =
      .error (.valueError "Can only process single expression.") ∧
    parse_query [.sother k] names = .error (.valueError "Not an expression.") := by
  constructor
  · refine parse_query_error _ _ _ ?_
    rw [_AstQuery.eq_def, if_pos (show (s1 :: s2 :: rest).length > 1 by simp)]
  · rfl

theorem _index_name_non_name (w : Obj) (h : ∀ id, w ≠ .oname id) :
    _index_name w = .error (.valueError "Index name must be a name.") := by
  cases w <;> first | rfl | exact absurd rfl (h _)

theorem process_Compare_non_name (names : Names) (w : Obj) (op : CmpAst)
    (w2 : Obj) (hop : op ≠ .cIn) (hw : ∀ id, w ≠ .oname id) :
    process_Compare names w op w2 =
      .error (.valueError "Index name must be a name.") := by
  cases op
  case cIn => exact absurd rfl hop
  all_goals
    show (do
      let i ← _index_name w
      let v ← _value names w2
      return cmpCls _ i v : Except PyErr Obj) = _
  all_goals rw [_index_name_non_name w hw]
  all_goals rfl

theorem process_Compare_cIn_non_name (names : Names) (w w2 : Obj)
    (hw2 : ∀ id, w2 ≠ .oname id) :
    process_Compare names w .cIn w2 =
      .error (.valueError "Index name must be a name.") := by
  show (do
    let i ← _index_name w2
    let v ← _value names w
    return Obj.contains i v : Except PyErr Obj) = _
  rw [_index_name_non_name w2 hw2]
  rfl

theorem parse_query_single_error (e : PyAst) (names : Names) (err : PyErr)
    (h : walk names e = .error err) :
    parse_query [.sexpr e] names = .error err :=
  parse_query_error _ _ _ h

theorem walk_compare (names : Names) (l r : PyAst) (op : CmpAst) :
    walk names (.astCompare l op r) = (do
      let o1 ← walk names l
      let o2 ← walk names r
      process_Compare names o1 op o2 : Except PyErr Obj) := rfl

/-- C10 (amended): for a comparison whose index-position operand — the
left operand for an ordinary comparison, the right operand for the
membership test — compiles to something other than a bare name, and
whose operands themselves compile without error, compilation fails with
`ValueError("Index name must be a name.")`; no comparator with a
non-name index is ever produced.  (When an operand's own compilation
fails, that earlier error is reported instead — see the
counterexample.) -/
theorem non_name_index_spec (l r : PyAst) (op : CmpAst) (names : Names)
    (w w2 : Obj) (hl : walk names l = .ok w) (hr : walk names r = .ok w2) :
    (op ≠ .cIn → (∀ id, w ≠ .oname id) →
      parse_query [.sexpr (.astCompare l op r)] names =
        .error (.valueError "Index name must be a name.")) ∧
    ((∀ id, w2 ≠ .oname id) →
      parse_query [.sexpr (.astCompare l .cIn r)] names =
        .error (.valueError "Index name must be a name.")) := by
  constructor
  · intro hop hw
    refine parse_query_single_error _ _ _ ?_
    rw [walk_compare, hl, hr]
    show process_Compare names w op w2 = _
    exact process_Compare_non_name names w op w2 hop hw
  · intro hw2
    refine parse_query_single_error _ _ _ ?_
    rw [walk_compare, hl, hr]
    show process_Compare names w .cIn w2 = _
    exact process_Compare_cIn_non_name names w w2 hw2

/-- Witness for `non_name_index_spec`: `"1 == 2"` and `"1 in 2"` both
fail with `ValueError("Index name must be a name.")`. -/
theorem non_name_index_spec_witness :
    parse_query [.sexpr (.astCompare (.astNum 1) .cEq (.astNum 2))] [] =
      .error (.valueError "Index name must be a name.") ∧
    parse_query [.sexpr (.astCompare (.astNum 1) .cIn (.astNum 2))] [] =
      .error (.valueError "Index name must be a name.") :=
  ⟨(non_name_index_spec (.astNum 1) (.astNum 2) .cEq [] (.oint 1) (.oint 2)
      rfl rfl).1 (by decide) (fun id h => Obj.noConfusion h),
   (non_name_index_spec (.astNum 1) (.astNum 2) .cIn [] (.oint 1) (.oint 2)
      rfl rfl).2 (fun id h => Obj.noConfusion h)⟩

/-- C10 (counterexample to the claim as stated): the comparison
`"[u] == 2"` has a non-name index-position operand, but with `u` absent
from the name table its compilation fails with `NameError("u")` raised
while resolving the list literal — not with the index-name error the
claim promises for every such comparison. -/
theorem non_name_index_error_kind :
    parse_query [.sexpr (.astCompare (.astList [.astName "u"]) .cEq (.astNum 2))] [] =
      .error (.nameError "u") ∧
    parse_query [.sexpr (.astCompare (.astList [.astName "u"]) .cEq (.astNum 2))] [] ≠
      .error (.valueError "Index name must be a name.") := by
  constructor
  · rfl
  · intro h
    have h1 : parse_query
        [.sexpr (.astCompare (.astList [.astName "u"]) .cEq (.astNum 2))] [] =
        (Except.error (PyErr.nameError "u") : Except PyErr Obj) := rfl
    have h2 := h1.symm.trans h
    injection h2 with h3
    exact PyErr.noConfusion h3
